import Mathlib

/-!
Verification development for the BrainSAIT OCR orchestration core
(`brainsait_ocr_backend.py`): a shallow embedding of its data model and of
the operations `_validate_file`, `_calculate_file_hash` (abstracted as an
environment-supplied digest function), `_detect_language`,
`_call_mistral_ocr_api`, `process_file`, `process_batch`, `get_statistics`,
and the cache read/write paths, together with theorems settling the frozen
claims about them.

External collaborators (the Mistral client, `mimetypes.guess_type`,
`langdetect.detect`, PyMuPDF page counting, wall-clock time) are modelled as
parameters of an `Env` record: the code treats each as an opaque call whose
result it consumes, so the embedding quantifies over their behaviour.
-/

namespace BrainsaitOcr

/-- Mirrors the `ProcessingStatus` enumeration of the source. -/
inductive ProcessingStatus where
  | pending
  | processing
  | completed
  | failed
  | cached
  deriving DecidableEq, Repr

/-- Boolean option bags, mirroring the `Dict[str, Any]` of processing flags
(`options.get(key, default)` becomes an association-list lookup). -/
abbrev Options := List (String × Bool)

/-- Mirrors the `DocumentMetadata` dataclass.  `created_at` is filled by
`__post_init__` from the wall clock, supplied here through the environment. -/
structure DocumentMetadata where
  file_name : String
  file_size : Nat
  file_type : String
  file_hash : String
  language : Option String := none
  page_count : Option Nat := none
  processing_time : Option ℚ := none
  created_at : String := ""
  deriving DecidableEq, Repr

/-- Mirrors the `OCRResult` dataclass; the source field named `structure`
is a Lean keyword and is rendered here as `structure_map`. -/
structure OCRResult where
  text : String
  confidence : Option ℚ := none
  language : Option String := none
  images : List String := []
  tables : List (List (String × String)) := []
  structure_map : List (String × String) := []
  deriving DecidableEq, Repr

/-- Mirrors the `ProcessingResult` dataclass. -/
structure ProcessingResult where
  metadata : DocumentMetadata
  ocr_result : OCRResult
  status : ProcessingStatus
  error_message : Option String := none
  processing_options : Options := []
  deriving DecidableEq, Repr

/-- Mirrors the `self.stats` counter dictionary initialised in `__init__`. -/
structure Stats where
  total_processed : Nat := 0
  successful : Nat := 0
  failed : Nat := 0
  cached : Nat := 0
  deriving DecidableEq, Repr

/-- A persisted cache file for one digest: either it deserialises into the
keyword arguments of `ProcessingResult(**cached_data)`, or any step of
reading/parsing/constructing raises (modelled as `corrupt`). -/
inductive CacheEntry where
  | corrupt
  | good (r : ProcessingResult)
  deriving DecidableEq, Repr

/-- The cache directory: one entry per content digest (the digest keys the
file name, so lookup is association-list lookup). -/
abbrev Cache := List (String × CacheEntry)

/-- A file on disk as the validator and hasher see it: its byte size and
its raw content bytes. -/
structure FileInfo where
  size : Nat
  content : List Nat
  deriving DecidableEq, Repr

/-- A snapshot of the filesystem: which paths exist and what they hold. -/
abbrev FileSystem := List (String × FileInfo)

/-- External collaborators of the orchestration core, each an opaque call
whose result the code consumes:
`guessType` models `mimetypes.guess_type` (extension-table lookup),
`hashHex` models the SHA-256 hex digest of `_calculate_file_hash`,
`detector` models `langdetect.detect` (which may raise),
`pdfPageCount` models the PyMuPDF page count (`none` when `fitz` raises),
`nowStr` and `elapsed` model `datetime.now().isoformat()` and the measured
processing duration. -/
structure Env where
  guessType : String → Option String
  hashHex : List Nat → String
  detector : String → Except String String
  pdfPageCount : String → Option Nat
  nowStr : String
  elapsed : ℚ

/-- Mirrors the `SUPPORTED_FORMATS` constant. -/
def SUPPORTED_FORMATS : List (String × String) :=
  [("pdf", "application/pdf"), ("png", "image/png"),
   ("jpg", "image/jpeg"), ("jpeg", "image/jpeg")]

/-- The set `SUPPORTED_FORMATS.values()` that `_validate_file` checks
membership in. -/
def supportedMimeValues : List String := SUPPORTED_FORMATS.map Prod.snd

/-- Mirrors the `MAX_FILE_SIZE = 50 * 1024 * 1024` constant. -/
def MAX_FILE_SIZE : Nat := 50 * 1024 * 1024

/-- Mirrors the `API_RETRY_ATTEMPTS = 3` constant. -/
def API_RETRY_ATTEMPTS : Nat := 3

/-- Mirrors the `API_RETRY_DELAY = 2` constant (seconds). -/
def API_RETRY_DELAY : Nat := 2

/-- Mirrors `Path.name`: the final path component (the characters after
the last slash). -/
def pathName (p : String) : String :=
  String.mk ((p.data.reverse.takeWhile (fun c => c ≠ '/')).reverse)

/-- Mirrors `Path.suffix`: the extension of the final component including
the leading dot, and empty for names with no dot, for hidden files whose
only dot leads, and for names ending in a dot. -/
def pathSuffix (p : String) : String :=
  let rev := (pathName p).data.reverse
  let ext := rev.takeWhile (fun c => c ≠ '.')
  if ext.length = rev.length then ""
  else if ext.length = 0 then ""
  else if ext.length + 1 = rev.length then ""
  else "." ++ String.mk ext.reverse

/-- ASCII lowering of one character, as `str.lower` treats extensions. -/
def lowerChar (c : Char) : Char :=
  if 65 ≤ c.toNat ∧ c.toNat ≤ 90 then Char.ofNat (c.toNat + 32) else c

/-- Mirrors `str.lower` on the ASCII extensions the code compares. -/
def strLower (s : String) : String := String.mk (s.data.map lowerChar)

/-- Mirrors `_validate_file` (lines 182-209): missing file, oversize file,
and unsupported declared MIME type each reject, in that order. -/
def validateFile (env : Env) (fs : FileSystem) (p : String) : Bool :=
  match List.lookup p fs with
  | none => false
  | some fi =>
    if fi.size > MAX_FILE_SIZE then false
    else
      match env.guessType p with
      | some m => supportedMimeValues.contains m
      | none => false

/-- Mirrors `_detect_language` (lines 239-254): text whose stripped length
is below 10 is `unknown` without calling the detector, and a detector
exception also yields `unknown`. -/
def detectLanguage (env : Env) (text : String) : String :=
  if text.trim.length < 10 then "unknown"
  else
    match env.detector text with
    | Except.ok l => l
    | Except.error _ => "unknown"

/-- The outcome of `_call_mistral_ocr_api`: the propagated result (the
extracted text, or the last error re-raised), the number of times the
underlying client call was made, and the backoff waits slept between
attempts, in order. -/
structure RetryOutcome where
  result : Except String String
  calls : Nat
  waits : List Nat
  deriving Repr

/-- The retry loop body of `_call_mistral_ocr_api` (lines 284-321):
`oracle n` is the outcome of the client call on zero-based attempt `n`
(both `MistralException` and unexpected errors are handled identically);
on failure with attempts remaining the loop sleeps
`API_RETRY_DELAY * (attempt + 1)` and retries, otherwise it re-raises. -/
def callMistralOcrApiAux (oracle : Nat → Except String String) :
    Nat → Nat → RetryOutcome
  | _, 0 => ⟨Except.error "", 0, []⟩
  | attempt, 1 =>
    match oracle attempt with
    | Except.ok t => ⟨Except.ok t, 1, []⟩
    | Except.error e => ⟨Except.error e, 1, []⟩
  | attempt, n + 2 =>
    match oracle attempt with
    | Except.ok t => ⟨Except.ok t, 1, []⟩
    | Except.error _ =>
      let rest := callMistralOcrApiAux oracle (attempt + 1) (n + 1)
      ⟨rest.result, rest.calls + 1, API_RETRY_DELAY * (attempt + 1) :: rest.waits⟩

/-- Mirrors `_call_mistral_ocr_api`: `for attempt in range(API_RETRY_ATTEMPTS)`
starting at attempt 0 with all `API_RETRY_ATTEMPTS` iterations remaining. -/
def callMistralOcrApi (oracle : Nat → Except String String) : RetryOutcome :=
  callMistralOcrApiAux oracle 0 API_RETRY_ATTEMPTS

/-- A Python runtime value as `dataclasses.asdict` produces it and the
`json` encoder consumes it: the encoder accepts strings, ints, floats,
bools, `None`, lists and dicts, and raises `TypeError` on anything else,
in particular on a `ProcessingStatus` enum member. -/
inductive PyVal where
  | pstr (s : String)
  | pint (n : Int)
  | prat (q : ℚ)
  | pbool (b : Bool)
  | pnone
  | penum (e : ProcessingStatus)
  | plist (xs : List PyVal)
  | pdict (kvs : List (String × PyVal))

mutual

/-- Whether `json.dumps` accepts the value (models lines 461-463: it raises
`TypeError` exactly when some nested value is a non-JSON type, here the
`ProcessingStatus` member that `asdict` leaves untouched). -/
def PyVal.serializable : PyVal → Bool
  | .pstr _ => true
  | .pint _ => true
  | .prat _ => true
  | .pbool _ => true
  | .pnone => true
  | .penum _ => false
  | .plist xs => PyVal.serializableL xs
  | .pdict kvs => PyVal.serializableKV kvs

/-- Serializability of every element of a Python list. -/
def PyVal.serializableL : List PyVal → Bool
  | [] => true
  | x :: xs => x.serializable && PyVal.serializableL xs

/-- Serializability of every value of a Python dict. -/
def PyVal.serializableKV : List (String × PyVal) → Bool
  | [] => true
  | (_, v) :: kvs => v.serializable && PyVal.serializableKV kvs

end

/-- Lifts an optional string the way `asdict` copies it (`None` or `str`). -/
def pyOptStr : Option String → PyVal
  | none => PyVal.pnone
  | some s => PyVal.pstr s

/-- Lifts an optional natural the way `asdict` copies it. -/
def pyOptNat : Option Nat → PyVal
  | none => PyVal.pnone
  | some n => PyVal.pint n

/-- Lifts an optional rational (Python float) the way `asdict` copies it. -/
def pyOptRat : Option ℚ → PyVal
  | none => PyVal.pnone
  | some q => PyVal.prat q

/-- The image of a `DocumentMetadata` under `dataclasses.asdict`. -/
def asdictMetadata (m : DocumentMetadata) : PyVal :=
  PyVal.pdict
    [("file_name", PyVal.pstr m.file_name),
     ("file_size", PyVal.pint m.file_size),
     ("file_type", PyVal.pstr m.file_type),
     ("file_hash", PyVal.pstr m.file_hash),
     ("language", pyOptStr m.language),
     ("page_count", pyOptNat m.page_count),
     ("processing_time", pyOptRat m.processing_time),
     ("created_at", PyVal.pstr m.created_at)]

/-- The image of an `OCRResult` under `dataclasses.asdict`. -/
def asdictOcr (o : OCRResult) : PyVal :=
  PyVal.pdict
    [("text", PyVal.pstr o.text),
     ("confidence", pyOptRat o.confidence),
     ("language", pyOptStr o.language),
     ("images", PyVal.plist (o.images.map PyVal.pstr)),
     ("tables", PyVal.plist (o.tables.map fun t =>
        PyVal.pdict (t.map fun kv => (kv.1, PyVal.pstr kv.2)))),
     ("structure", PyVal.pdict (o.structure_map.map fun kv =>
        (kv.1, PyVal.pstr kv.2)))]

/-- The image of a `ProcessingResult` under `dataclasses.asdict` (line 460):
note that the `status` field stays a `ProcessingStatus` enum member,
because `asdict` only recurses into dataclasses, dicts, lists and tuples. -/
def asdictResult (r : ProcessingResult) : PyVal :=
  PyVal.pdict
    [("metadata", asdictMetadata r.metadata),
     ("ocr_result", asdictOcr r.ocr_result),
     ("status", PyVal.penum r.status),
     ("error_message", pyOptStr r.error_message),
     ("processing_options", PyVal.pdict
        (r.processing_options.map fun kv => (kv.1, PyVal.pbool kv.2)))]

/-- The cache write of lines 457-466: serialize with `json.dumps(asdict(result))`
and persist under the digest; any exception (here the `TypeError` from the
enum member) is caught, logged and ignored, leaving the cache unchanged. -/
def cacheStore (c : Cache) (digest : String) (r : ProcessingResult) : Cache :=
  if (asdictResult r).serializable then (digest, CacheEntry.good r) :: c else c

/-- The mutable state of a `BrainSAITOCR` instance that `process_file`
touches: the cache directory and the statistics counters. -/
structure OcrState where
  cache : Cache
  stats : Stats
  deriving Repr

/-- The observable outcome of one `process_file` call: the returned
`ProcessingResult`, the instance state afterwards, and how many times the
underlying extraction client was invoked during the call. -/
structure ProcOut where
  result : ProcessingResult
  state : OcrState
  apiCalls : Nat
  deriving Repr

/-- The early return of lines 385-396 when `_validate_file` fails. -/
def failedValidationResult (env : Env) (p : String) : ProcessingResult :=
  { metadata :=
      { file_name := pathName p, file_size := 0, file_type := "unknown",
        file_hash := "", created_at := env.nowStr },
    ocr_result := { text := "" },
    status := ProcessingStatus.failed,
    error_message := some "File validation failed" }

/-- Mirrors `process_file` (lines 362-487).  The per-call behaviour of the
external extraction client is `oracle n`, the outcome of its `n`-th
invocation inside `_call_mistral_ocr_api`.  Branches, in source order:
validation failure returns early touching no counter; a deserializable
cache entry under the digest (when `use_cache`) is returned with status
forced to `cached` and only the `cached` counter bumped; a corrupt entry
falls through with a warning; otherwise metadata is built (with the PDF
page count for `.pdf` suffixes), the retrying client is called, and on
success a `completed` result is assembled, a best-effort cache write is
attempted and `successful`/`total_processed` are bumped, while on
exhaustion a `failed` result with the error string is returned and
`failed`/`total_processed` are bumped. -/
def processFile (env : Env) (fs : FileSystem) (st : OcrState)
    (oracle : Nat → Except String String) (p : String) (options : Options)
    (useCache : Bool) : ProcOut :=
  match List.lookup p fs with
  | none => ⟨failedValidationResult env p, st, 0⟩
  | some fi =>
    if validateFile env fs p = false then ⟨failedValidationResult env p, st, 0⟩
    else
      let fileHash := env.hashHex fi.content
      let cacheHit : Option ProcessingResult :=
        if useCache then
          match List.lookup fileHash st.cache with
          | some (CacheEntry.good r) => some r
          | _ => none
        else none
      match cacheHit with
      | some r =>
        ⟨{ r with status := ProcessingStatus.cached },
         { st with stats := { st.stats with cached := st.stats.cached + 1 } },
         0⟩
      | none =>
        let metadata : DocumentMetadata :=
          { file_name := pathName p, file_size := fi.size,
            file_type := (env.guessType p).getD "unknown",
            file_hash := fileHash, created_at := env.nowStr,
            page_count :=
              if strLower (pathSuffix p) = ".pdf" then
                some ((env.pdfPageCount p).getD 0)
              else none }
        let attemptOut := callMistralOcrApi oracle
        match attemptOut.result with
        | Except.ok text =>
          let lang := detectLanguage env text
          let metadata2 :=
            { metadata with
                language := some lang,
                processing_time := some env.elapsed }
          let result : ProcessingResult :=
            { metadata := metadata2,
              ocr_result :=
                { text := text, language := some lang,
                  confidence := some (95 / 100 : ℚ) },
              status := ProcessingStatus.completed,
              processing_options := options }
          let cache2 :=
            if useCache then cacheStore st.cache fileHash result else st.cache
          ⟨result,
           ⟨cache2,
            { st.stats with
                successful := st.stats.successful + 1,
                total_processed := st.stats.total_processed + 1 }⟩,
           attemptOut.calls⟩
        | Except.error e =>
          ⟨{ metadata := metadata, ocr_result := { text := "" },
             status := ProcessingStatus.failed, error_message := some e,
             processing_options := options },
           ⟨st.cache,
            { st.stats with
                failed := st.stats.failed + 1,
                total_processed := st.stats.total_processed + 1 }⟩,
           attemptOut.calls⟩

/-- The defensive fallback of `process_batch` (lines 519-534): a raised
exception for one document becomes a `failed` result for that document. -/
def exceptionResult (env : Env) (p : String) (e : String) : ProcessingResult :=
  { metadata :=
      { file_name := pathName p, file_size := 0, file_type := "unknown",
        file_hash := "", created_at := env.nowStr },
    ocr_result := { text := "" },
    status := ProcessingStatus.failed,
    error_message := some e }

/-- The per-document outcome of a batch task as `asyncio.gather` with
`return_exceptions=True` delivers it: the returned result, or the
exception that escaped the pipeline. -/
abbrev BatchOutcome := Except String ProcessingResult

/-- The collection loop of `process_batch` (lines 517-536) applied to the
gather output, which is ordered by input index: each exception becomes a
`failed` result for its own path, other results pass through. -/
def processBatchCollect (env : Env) (paths : List String)
    (outcomes : List BatchOutcome) : List ProcessingResult :=
  (paths.zip outcomes).map fun pe =>
    match pe.2 with
    | Except.ok r => r
    | Except.error e => exceptionResult env pe.1 e

/-- Models `asyncio.gather` buffering per-task completions by original
index: `completions` lists `(index, outcome)` pairs in arbitrary completion
order, and the batch output is reassembled by looking each input index up.
The final fallback arm is unreachable whenever every task completes
exactly once. -/
def processBatchAssemble (env : Env) (paths : List String)
    (completions : List (Nat × BatchOutcome)) : List ProcessingResult :=
  (List.range paths.length).map fun i =>
    match List.lookup i completions with
    | some (Except.ok r) => r
    | some (Except.error e) => exceptionResult env (paths.getD i "") e
    | none => exceptionResult env (paths.getD i "") "task produced no outcome"

/-- The task body `process_with_semaphore` of `process_batch` (lines
510-512): it calls `process_file(file_path, options)` with `use_cache`
left at its default `True`; the batch interface has no way to pass
anything else. -/
def processWithSemaphore (env : Env) (fs : FileSystem) (st : OcrState)
    (oracle : Nat → Except String String) (p : String) (options : Options) :
    ProcOut :=
  processFile env fs st oracle p options true

/-- The invariant of §3 of the spec on a single result: a `failed` result
has empty text and an error message, a `completed` or `cached` result has
no error message. -/
def resultInvariant (r : ProcessingResult) : Prop :=
  (r.status = ProcessingStatus.failed →
    r.ocr_result.text = "" ∧ r.error_message ≠ none) ∧
  (r.status = ProcessingStatus.completed ∨ r.status = ProcessingStatus.cached →
    r.error_message = none)

/-- The cache honours the spec's `CacheEntry` lifecycle: every entry that
deserialises was persisted from a successful extraction and therefore
carries no error message. -/
def cacheWellFormed (c : Cache) : Prop :=
  ∀ h r, List.lookup h c = some (CacheEntry.good r) → r.error_message = none

/-- The snapshot returned by `get_statistics` (lines 791-803). -/
structure StatSnapshot where
  total_processed : Nat
  successful : Nat
  failed : Nat
  cached : Nat
  success_rate : ℚ
  cache_hit_rate : ℚ
  deriving DecidableEq, Repr

/-- Mirrors `get_statistics`: the four raw counters spread unchanged, plus
the two percentage rates computed against `max(total_processed, 1)`. -/
def getStatistics (s : Stats) : StatSnapshot :=
  { total_processed := s.total_processed, successful := s.successful,
    failed := s.failed, cached := s.cached,
    success_rate :=
      ((s.successful : ℚ) / ((max s.total_processed 1 : Nat) : ℚ)) * 100,
    cache_hit_rate :=
      ((s.cached : ℚ) / ((max s.total_processed 1 : Nat) : ℚ)) * 100 }

/-- The phase of one per-document task of `process_batch` with respect to
the admission gate: not yet admitted, inside the `async with semaphore`
block (its extraction pipeline in flight), or finished. -/
inductive TaskPhase where
  | waiting
  | running
  | finished
  deriving DecidableEq, Repr

/-- The shared state of the batch dispatcher: the free permits of
`asyncio.Semaphore(max_concurrent)` and the phase of every task. -/
structure SemState where
  permits : Nat
  tasks : List TaskPhase
  deriving DecidableEq, Repr

/-- The initial dispatcher state of `process_batch` (lines 508-514): the
semaphore holds `max_concurrent` permits and every task awaits admission. -/
def semInit (maxConcurrent : Nat) (numTasks : Nat) : SemState :=
  ⟨maxConcurrent, List.replicate numTasks TaskPhase.waiting⟩

/-- One scheduler step of the batch dispatcher: a waiting task acquires a
free permit and starts running (semaphore entry), or a running task
finishes and releases its permit (semaphore exit). -/
inductive SemStep : SemState → SemState → Prop where
  | acquire (s : SemState) (i : Nat)
      (hi : s.tasks[i]? = some TaskPhase.waiting) (hp : 0 < s.permits) :
      SemStep s ⟨s.permits - 1, s.tasks.set i TaskPhase.running⟩
  | release (s : SemState) (i : Nat)
      (hi : s.tasks[i]? = some TaskPhase.running) :
      SemStep s ⟨s.permits + 1, s.tasks.set i TaskPhase.finished⟩

/-- Dispatcher states reachable from a given initial state by scheduler
steps in any interleaving. -/
inductive SemReachable (init : SemState) : SemState → Prop where
  | refl : SemReachable init init
  | step {s s' : SemState} :
      SemReachable init s → SemStep s s' → SemReachable init s'

/-- How many extraction pipelines are in flight. -/
def runningCount (ts : List TaskPhase) : Nat :=
  ts.countP fun t => t == TaskPhase.running

/-- A concrete collaborator environment used by witness theorems: `.pdf`
paths are declared `application/pdf`, the digest is the printed byte list,
the language detector always answers English. -/
def cEnv : Env :=
  { guessType := fun p =>
      if p == "doc.pdf" then some "application/pdf" else none,
    hashHex := fun bytes => toString bytes,
    detector := fun _ => Except.ok "en",
    pdfPageCount := fun _ => some 1,
    nowStr := "2026-01-01T00:00:00",
    elapsed := 1 }

/-- A concrete one-file filesystem used by witness theorems. -/
def cFs : FileSystem := [("doc.pdf", ⟨4, [1, 2, 3, 4]⟩)]

/-- A concrete extraction client that always succeeds. -/
def cOracleOk : Nat → Except String String :=
  fun _ => Except.ok "plenty of extracted text"

/-- The empty instance state: empty cache directory, zeroed counters. -/
def cState0 : OcrState := ⟨[], {}⟩

/-- The outcome of processing `doc.pdf` once from the empty state with
caching enabled. -/
def cFirstRun : ProcOut := processFile cEnv cFs cState0 cOracleOk "doc.pdf" [] true

/-- An instance state whose cache holds a corrupt entry under the digest
of `doc.pdf`. -/
def cCorruptState : OcrState :=
  ⟨[(cEnv.hashHex [1, 2, 3, 4], CacheEntry.corrupt)], {}⟩

/-- A previously persisted result, as a deserializable cache entry holds. -/
def cCachedResult : ProcessingResult :=
  { metadata :=
      { file_name := "doc.pdf", file_size := 4,
        file_type := "application/pdf", file_hash := "[1, 2, 3, 4]" },
    ocr_result := { text := "earlier text" },
    status := ProcessingStatus.completed }

/-- An instance state whose cache holds that deserializable entry under
the digest of `doc.pdf`. -/
def cGoodState : OcrState :=
  ⟨[(cEnv.hashHex [1, 2, 3, 4], CacheEntry.good cCachedResult)], {}⟩

/-- The serialization step of the cache write fails for every result: the
dict always contains the raw `ProcessingStatus` member under `"status"`. -/
theorem asdictResult_not_serializable (r : ProcessingResult) :
    (asdictResult r).serializable = false := by
  simp only [asdictResult, PyVal.serializable, PyVal.serializableKV]
  cases h : (asdictMetadata r.metadata).serializable <;>
    cases h2 : (asdictOcr r.ocr_result).serializable <;>
      simp [PyVal.serializable]

/-- The cache write never changes the cache: serialization always raises. -/
theorem cacheStore_eq (c : Cache) (digest : String) (r : ProcessingResult) :
    cacheStore c digest r = c := by
  simp [cacheStore, asdictResult_not_serializable]

/-- C6: the validator rejects exactly the missing, oversize, or
unsupported-MIME files. -/
theorem c6_validate_iff (env : Env) (fs : FileSystem) (p : String) :
    validateFile env fs p = false ↔
      (List.lookup p fs = none ∨
       (∃ fi, List.lookup p fs = some fi ∧ fi.size > 52428800) ∨
       (∀ m, env.guessType p = some m →
          m ≠ "application/pdf" ∧ m ≠ "image/png" ∧ m ≠ "image/jpeg")) := by
  unfold validateFile
  cases hfs : List.lookup p fs with
  | none => simp
  | some fi =>
    simp only [hfs, Option.some.injEq]
    by_cases hsz : fi.size > MAX_FILE_SIZE
    · simp only [hsz, if_pos, MAX_FILE_SIZE] at *
      constructor
      · intro _
        exact Or.inr (Or.inl ⟨fi, rfl, by simpa [MAX_FILE_SIZE] using hsz⟩)
      · intro _
        simp [hsz]
    · simp only [hsz, if_neg, not_false_iff]
      cases hmt : env.guessType p with
      | none =>
        simp only [hmt]
        constructor
        · intro _
          exact Or.inr (Or.inr (by intro m hm; cases hm))
        · intro _
          trivial
      | some m =>
        simp only [hmt, Option.some.injEq]
        constructor
        · intro hcontains
          refine Or.inr (Or.inr ?_)
          intro m' hm'
          subst hm'
          simp only [supportedMimeValues, SUPPORTED_FORMATS, List.map,
            List.contains, List.elem_eq_mem, List.mem_cons, List.mem_singleton,
            decide_eq_false_iff_not, not_or] at hcontains
          simp only [List.not_mem_nil, or_false] at hcontains
          exact ⟨hcontains.1, hcontains.2.1, hcontains.2.2.1⟩
        · rintro (h | ⟨fi', hfi', hsz'⟩ | h)
          · cases h
          · cases hfi'
            exact absurd (by simpa [MAX_FILE_SIZE] using hsz') hsz
          · obtain ⟨h1, h2, h3⟩ := h m rfl
            simp [supportedMimeValues, SUPPORTED_FORMATS, List.contains,
              List.elem_eq_mem, h1, h2, h3]

/-- Witness for C6: a path absent from the filesystem is rejected. -/
theorem c6_validate_iff_witness :
    validateFile cEnv [] "missing.docx" = false :=
  (c6_validate_iff cEnv [] "missing.docx").mpr (Or.inl rfl)

/-- C2: the wrapper makes at most 3 attempts, and when every attempt fails
it makes exactly 3 calls, sleeps 2 then 4 seconds between them (linear
backoff `API_RETRY_DELAY * attemptNumber`), and propagates the error of the
third and last attempt. -/
theorem c2_retry_policy (oracle : Nat → Except String String) :
    (callMistralOcrApi oracle).calls ≤ 3 ∧
    ((∀ n, ∃ e, oracle n = Except.error e) →
      (callMistralOcrApi oracle).calls = 3 ∧
      (callMistralOcrApi oracle).waits = [2, 4] ∧
      (callMistralOcrApi oracle).result = oracle 2) := by
  constructor
  · cases h0 : oracle 0 with
    | ok t =>
      simp [callMistralOcrApi, API_RETRY_ATTEMPTS, callMistralOcrApiAux, h0]
    | error e0 =>
      cases h1 : oracle 1 with
      | ok t =>
        simp [callMistralOcrApi, API_RETRY_ATTEMPTS, callMistralOcrApiAux,
          h0, h1]
      | error e1 =>
        cases h2 : oracle 2 with
        | ok t =>
          simp [callMistralOcrApi, API_RETRY_ATTEMPTS, callMistralOcrApiAux,
            h0, h1, h2]
        | error e2 =>
          simp [callMistralOcrApi, API_RETRY_ATTEMPTS, callMistralOcrApiAux,
            h0, h1, h2]
  · intro h
    obtain ⟨e0, h0⟩ := h 0
    obtain ⟨e1, h1⟩ := h 1
    obtain ⟨e2, h2⟩ := h 2
    unfold callMistralOcrApi API_RETRY_ATTEMPTS callMistralOcrApiAux
    simp [h0, h1, h2, callMistralOcrApiAux, API_RETRY_DELAY]

/-- Witness for C2: a client that always raises is called exactly 3 times,
with waits of 2 then 4 seconds, and its last error surfaces. -/
theorem c2_retry_policy_witness :
    (callMistralOcrApi fun n => Except.error (toString n)).calls = 3 ∧
    (callMistralOcrApi fun n => Except.error (toString n)).waits = [2, 4] ∧
    (callMistralOcrApi fun n => Except.error (toString n)).result =
      Except.error "2" :=
  (c2_retry_policy fun n => Except.error (toString n)).2
    (fun n => ⟨toString n, rfl⟩)

/-- The retrying wrapper always invokes the client at least once. -/
theorem callMistralOcrApi_calls_pos (oracle : Nat → Except String String) :
    1 ≤ (callMistralOcrApi oracle).calls := by
  cases h0 : oracle 0 with
  | ok t =>
    simp [callMistralOcrApi, API_RETRY_ATTEMPTS, callMistralOcrApiAux, h0]
  | error e =>
    simp only [callMistralOcrApi, API_RETRY_ATTEMPTS, callMistralOcrApiAux, h0]
    omega

/-- C1 (amended): the extraction-success branch bumps `successful` and
`total_processed` by 1, the extraction-failure branch bumps `failed` and
`total_processed` by 1, the cache-hit branch bumps only `cached` by 1, and
the validation-failure branch leaves every counter unchanged (it returns
before `self.stats` is touched). -/
theorem c1_counter_updates (env : Env) (fs : FileSystem) (st : OcrState)
    (oracle : Nat → Except String String) (p : String) (options : Options)
    (useCache : Bool) :
    (validateFile env fs p = false →
      (processFile env fs st oracle p options useCache).state.stats =
        st.stats) ∧
    (validateFile env fs p = true →
      ((processFile env fs st oracle p options useCache).result.status =
          ProcessingStatus.cached →
        (processFile env fs st oracle p options useCache).state.stats =
          { st.stats with cached := st.stats.cached + 1 }) ∧
      ((processFile env fs st oracle p options useCache).result.status =
          ProcessingStatus.completed →
        (processFile env fs st oracle p options useCache).state.stats =
          { st.stats with
              successful := st.stats.successful + 1,
              total_processed := st.stats.total_processed + 1 }) ∧
      ((processFile env fs st oracle p options useCache).result.status =
          ProcessingStatus.failed →
        (processFile env fs st oracle p options useCache).state.stats =
          { st.stats with
              failed := st.stats.failed + 1,
              total_processed := st.stats.total_processed + 1 })) := by
  cases hfs : List.lookup p fs with
  | none =>
    have hv : validateFile env fs p = false := by
      unfold validateFile
      rw [hfs]
    constructor
    · intro _
      simp [processFile, hfs]
    · intro hvt
      rw [hv] at hvt
      cases hvt
  | some fi =>
    cases hvb : validateFile env fs p with
    | false =>
      constructor
      · intro _
        simp [processFile, hfs, hvb]
      · intro hvt
        exact absurd hvt (by simp)
    | true =>
      constructor
      · intro hvf
        exact absurd hvf (by simp)
      · intro _
        cases useCache with
        | false =>
          cases hr : (callMistralOcrApi oracle).result with
          | ok t =>
            refine ⟨?_, ?_, ?_⟩ <;>
              simp [processFile, hfs, hvb, hr]
          | error e =>
            refine ⟨?_, ?_, ?_⟩ <;>
              simp [processFile, hfs, hvb, hr]
        | true =>
          cases hc : List.lookup (env.hashHex fi.content) st.cache with
          | none =>
            cases hr : (callMistralOcrApi oracle).result with
            | ok t =>
              refine ⟨?_, ?_, ?_⟩ <;>
                simp [processFile, hfs, hvb, hc, hr]
            | error e =>
              refine ⟨?_, ?_, ?_⟩ <;>
                simp [processFile, hfs, hvb, hc, hr]
          | some entry =>
            cases entry with
            | corrupt =>
              cases hr : (callMistralOcrApi oracle).result with
              | ok t =>
                refine ⟨?_, ?_, ?_⟩ <;>
                  simp [processFile, hfs, hvb, hc, hr]
              | error e =>
                refine ⟨?_, ?_, ?_⟩ <;>
                  simp [processFile, hfs, hvb, hc, hr]
            | good r =>
              refine ⟨?_, ?_, ?_⟩ <;>
                simp [processFile, hfs, hvb, hc]

/-- Witness for C1: the successful extraction of `doc.pdf` from the empty
state bumps `successful` and `total_processed` to 1. -/
theorem c1_counter_updates_witness :
    (processFile cEnv cFs cState0 cOracleOk "doc.pdf" [] true).state.stats =
      { cState0.stats with
          successful := cState0.stats.successful + 1,
          total_processed := cState0.stats.total_processed + 1 } :=
  ((c1_counter_updates cEnv cFs cState0 cOracleOk "doc.pdf" [] true).2
    rfl).2.1 rfl

/-- C1 counterexample: a call that takes the validation-failure branch (a
missing file) leaves `total_processed` at 0 instead of incrementing it by
exactly 1, refuting the claim as stated. -/
theorem c1_counterexample :
    validateFile cEnv [] "missing.pdf" = false ∧
    (processFile cEnv [] cState0 cOracleOk "missing.pdf" []
        true).result.error_message = some "File validation failed" ∧
    (processFile cEnv [] cState0 cOracleOk "missing.pdf" []
        true).state.stats.total_processed = 0 ∧
    ¬ (processFile cEnv [] cState0 cOracleOk "missing.pdf" []
        true).state.stats.total_processed =
      cState0.stats.total_processed + 1 :=
  ⟨rfl, rfl, rfl, by decide⟩

/-- C7: a corrupt cache entry for the digest is treated exactly like an
absent one: the call never raises (the embedding is a total function), the
result, counter updates and client invocations are identical to processing
with an empty cache directory, and the extraction client is still invoked
at least once. -/
theorem c7_corrupt_cache_degrades (env : Env) (fs : FileSystem)
    (st : OcrState) (oracle : Nat → Except String String) (p : String)
    (options : Options) (fi : FileInfo)
    (hfs : List.lookup p fs = some fi)
    (hv : validateFile env fs p = true)
    (hc : List.lookup (env.hashHex fi.content) st.cache =
      some CacheEntry.corrupt) :
    (processFile env fs st oracle p options true).result =
      (processFile env fs ⟨[], st.stats⟩ oracle p options true).result ∧
    (processFile env fs st oracle p options true).state.stats =
      (processFile env fs ⟨[], st.stats⟩ oracle p options true).state.stats ∧
    (processFile env fs st oracle p options true).apiCalls =
      (processFile env fs ⟨[], st.stats⟩ oracle p options true).apiCalls ∧
    1 ≤ (processFile env fs st oracle p options true).apiCalls := by
  cases hr : (callMistralOcrApi oracle).result with
  | ok t =>
    refine ⟨?_, ?_, ?_, ?_⟩ <;>
      simp [processFile, hfs, hv, hc, hr, callMistralOcrApi_calls_pos]
  | error e =>
    refine ⟨?_, ?_, ?_, ?_⟩ <;>
      simp [processFile, hfs, hv, hc, hr, callMistralOcrApi_calls_pos]

/-- Witness for C7: processing `doc.pdf` against a corrupt cache entry
behaves exactly like processing it with an empty cache. -/
theorem c7_corrupt_cache_degrades_witness :
    (processFile cEnv cFs cCorruptState cOracleOk "doc.pdf" [] true).result =
      (processFile cEnv cFs ⟨[], cCorruptState.stats⟩ cOracleOk "doc.pdf" []
        true).result ∧
    (processFile cEnv cFs cCorruptState cOracleOk "doc.pdf" []
        true).state.stats =
      (processFile cEnv cFs ⟨[], cCorruptState.stats⟩ cOracleOk "doc.pdf" []
        true).state.stats ∧
    (processFile cEnv cFs cCorruptState cOracleOk "doc.pdf" []
        true).apiCalls =
      (processFile cEnv cFs ⟨[], cCorruptState.stats⟩ cOracleOk "doc.pdf" []
        true).apiCalls ∧
    1 ≤ (processFile cEnv cFs cCorruptState cOracleOk "doc.pdf" []
        true).apiCalls :=
  c7_corrupt_cache_degrades cEnv cFs cCorruptState cOracleOk "doc.pdf" []
    ⟨4, [1, 2, 3, 4]⟩ rfl rfl rfl

/-- No call to `process_file` ever changes the cache: the only write path
is the best-effort store whose serialization always raises. -/
theorem processFile_cache_invariant (env : Env) (fs : FileSystem)
    (st : OcrState) (oracle : Nat → Except String String) (p : String)
    (options : Options) (useCache : Bool) :
    (processFile env fs st oracle p options useCache).state.cache =
      st.cache := by
  cases hfs : List.lookup p fs with
  | none => simp [processFile, hfs]
  | some fi =>
    cases hvb : validateFile env fs p with
    | false => simp [processFile, hfs, hvb]
    | true =>
      cases useCache with
      | false =>
        cases hr : (callMistralOcrApi oracle).result with
        | ok t => simp [processFile, hfs, hvb, hr]
        | error e => simp [processFile, hfs, hvb, hr]
      | true =>
        cases hc : List.lookup (env.hashHex fi.content) st.cache with
        | none =>
          cases hr : (callMistralOcrApi oracle).result with
          | ok t => simp [processFile, hfs, hvb, hc, hr, cacheStore_eq]
          | error e => simp [processFile, hfs, hvb, hc, hr]
        | some entry =>
          cases entry with
          | corrupt =>
            cases hr : (callMistralOcrApi oracle).result with
            | ok t => simp [processFile, hfs, hvb, hc, hr, cacheStore_eq]
            | error e => simp [processFile, hfs, hvb, hc, hr]
          | good r => simp [processFile, hfs, hvb, hc]

/-- C4 at the failing input: `doc.pdf` is processed twice with caching
enabled from the empty state.  The first call completes, but its cache
write fails (`json.dumps(asdict(result))` raises `TypeError` on the
`ProcessingStatus` enum member), so the cache stays empty and the second
call invokes the extraction client again and returns `completed` instead
of the claimed `cached`-with-no-extraction-call. -/
theorem c4_second_call_reextracts :
    cFirstRun.result.status = ProcessingStatus.completed ∧
    cFirstRun.state.cache = [] ∧
    (processFile cEnv cFs cFirstRun.state cOracleOk "doc.pdf" []
        true).result.status = ProcessingStatus.completed ∧
    (processFile cEnv cFs cFirstRun.state cOracleOk "doc.pdf" []
        true).result.status ≠ ProcessingStatus.cached ∧
    1 ≤ (processFile cEnv cFs cFirstRun.state cOracleOk "doc.pdf" []
        true).apiCalls :=
  ⟨rfl, rfl, rfl, by decide, by decide⟩

/-- C5: with a cache whose deserializable entries follow the spec's
`CacheEntry` lifecycle (persisted from successful extractions, hence
without error message), every result returned by `process_file` satisfies
the status invariant, and the batch collection preserves it: exception
fallbacks are `failed` results with empty text and an error message, and
pass-through results keep their own invariant. -/
theorem c5_status_invariant (env : Env) (fs : FileSystem) (st : OcrState)
    (oracle : Nat → Except String String) (p : String) (options : Options)
    (useCache : Bool) (paths : List String) (outcomes : List BatchOutcome) :
    (cacheWellFormed st.cache →
      resultInvariant (processFile env fs st oracle p options useCache).result) ∧
    ((∀ r, Except.ok r ∈ outcomes → resultInvariant r) →
      ∀ r ∈ processBatchCollect env paths outcomes, resultInvariant r) := by
  constructor
  · intro hwf
    cases hfs : List.lookup p fs with
    | none =>
      simp [processFile, hfs, resultInvariant, failedValidationResult]
    | some fi =>
      cases hvb : validateFile env fs p with
      | false =>
        simp [processFile, hfs, hvb, resultInvariant, failedValidationResult]
      | true =>
        cases useCache with
        | false =>
          cases hr : (callMistralOcrApi oracle).result with
          | ok t => simp [processFile, hfs, hvb, hr, resultInvariant]
          | error e => simp [processFile, hfs, hvb, hr, resultInvariant]
        | true =>
          cases hc : List.lookup (env.hashHex fi.content) st.cache with
          | none =>
            cases hr : (callMistralOcrApi oracle).result with
            | ok t => simp [processFile, hfs, hvb, hc, hr, resultInvariant]
            | error e => simp [processFile, hfs, hvb, hc, hr, resultInvariant]
          | some entry =>
            cases entry with
            | corrupt =>
              cases hr : (callMistralOcrApi oracle).result with
              | ok t => simp [processFile, hfs, hvb, hc, hr, resultInvariant]
              | error e =>
                simp [processFile, hfs, hvb, hc, hr, resultInvariant]
            | good r =>
              have herr : r.error_message = none := hwf _ _ hc
              simp [processFile, hfs, hvb, hc, resultInvariant, herr]
  · intro hok r hr
    simp only [processBatchCollect, List.mem_map] at hr
    obtain ⟨pe, hpe, hmap⟩ := hr
    cases he : pe.2 with
    | ok r' =>
      rw [he] at hmap
      have : Except.ok r' ∈ outcomes := by
        have := List.of_mem_zip hpe
        rw [he] at this
        exact this.2
      rw [← hmap]
      exact hok r' this
    | error e =>
      rw [he] at hmap
      rw [← hmap]
      simp [resultInvariant, exceptionResult]

/-- Witness for C5: the validation-failure result for a missing file under
an empty (hence well-formed) cache satisfies the invariant, as does every
result collected from a batch with one exception outcome. -/
theorem c5_status_invariant_witness :
    resultInvariant
      (processFile cEnv [] cState0 cOracleOk "missing.pdf" [] true).result ∧
    ∀ r ∈ processBatchCollect cEnv ["a.pdf"] [Except.error "boom"],
      resultInvariant r :=
  ⟨(c5_status_invariant cEnv [] cState0 cOracleOk "missing.pdf" [] true
      ["a.pdf"] [Except.error "boom"]).1
      (fun h r hr => Option.noConfusion hr),
   (c5_status_invariant cEnv [] cState0 cOracleOk "missing.pdf" [] true
      ["a.pdf"] [Except.error "boom"]).2
      (fun r hr => by simp at hr)⟩

/-- C9: the batch task body always runs `process_file` with `use_cache`
left at its default `True` — the batch interface exposes no way to disable
the cache — and consequently a deserializable cache entry for a batch
document is served as `cached` with no extraction call even though the
caller never asked for caching. -/
theorem c9_batch_always_caches (env : Env) (fs : FileSystem) (st : OcrState)
    (oracle : Nat → Except String String) (p : String) (options : Options) :
    processWithSemaphore env fs st oracle p options =
      processFile env fs st oracle p options true ∧
    (∀ fi r, List.lookup p fs = some fi →
      validateFile env fs p = true →
      List.lookup (env.hashHex fi.content) st.cache =
        some (CacheEntry.good r) →
      (processWithSemaphore env fs st oracle p options).result.status =
        ProcessingStatus.cached ∧
      (processWithSemaphore env fs st oracle p options).apiCalls = 0) := by
  refine ⟨rfl, ?_⟩
  intro fi r hfs hv hc
  constructor <;> simp [processWithSemaphore, processFile, hfs, hv, hc]

/-- Witness for C9: a batch document whose digest has a deserializable
cache entry is returned as `cached` with no extraction call. -/
theorem c9_batch_always_caches_witness :
    (processWithSemaphore cEnv cFs cGoodState cOracleOk "doc.pdf"
        []).result.status = ProcessingStatus.cached ∧
    (processWithSemaphore cEnv cFs cGoodState cOracleOk "doc.pdf"
        []).apiCalls = 0 :=
  (c9_batch_always_caches cEnv cFs cGoodState cOracleOk "doc.pdf" []).2
    ⟨4, [1, 2, 3, 4]⟩ cCachedResult rfl rfl rfl

/-- C8: the statistics snapshot carries the four raw counters unchanged,
computes both rates against `max(total_processed, 1)` as percentages, that
denominator is never zero, and when nothing has been processed yet the
rates are well-defined with denominator 1. -/
theorem c8_statistics_snapshot (s : Stats) :
    (getStatistics s).total_processed = s.total_processed ∧
    (getStatistics s).successful = s.successful ∧
    (getStatistics s).failed = s.failed ∧
    (getStatistics s).cached = s.cached ∧
    (getStatistics s).success_rate =
      ((s.successful : ℚ) / ((max s.total_processed 1 : Nat) : ℚ)) * 100 ∧
    (getStatistics s).cache_hit_rate =
      ((s.cached : ℚ) / ((max s.total_processed 1 : Nat) : ℚ)) * 100 ∧
    ((max s.total_processed 1 : Nat) : ℚ) ≠ 0 ∧
    (s.total_processed = 0 →
      (getStatistics s).success_rate = (s.successful : ℚ) * 100 ∧
      (getStatistics s).cache_hit_rate = (s.cached : ℚ) * 100) := by
  refine ⟨rfl, rfl, rfl, rfl, rfl, rfl, ?_, ?_⟩
  · have h1 : 1 ≤ max s.total_processed 1 := le_max_right _ _
    exact_mod_cast Nat.pos_iff_ne_zero.mp h1
  · intro h0
    constructor <;> simp [getStatistics, h0]

/-- Witness for C8: the empty counter set yields zero rates with
denominator `max(0, 1) = 1`. -/
theorem c8_statistics_snapshot_witness :
    (getStatistics {}).success_rate = ((0 : Nat) : ℚ) * 100 ∧
    (getStatistics {}).cache_hit_rate = ((0 : Nat) : ℚ) * 100 :=
  (c8_statistics_snapshot {}).2.2.2.2.2.2.2 rfl

/-- Helper: association lookup is invariant under permutation of the
entries when the keys are distinct. -/
theorem lookup_eq_of_perm {α β : Type} [DecidableEq α]
    {l₁ l₂ : List (α × β)} (h : l₁.Perm l₂)
    (nd : (l₁.map Prod.fst).Nodup) (a : α) :
    List.lookup a l₁ = List.lookup a l₂ := by
  induction h with
  | nil => rfl
  | cons x h ih =>
    obtain ⟨k, b⟩ := x
    simp only [List.map_cons, List.nodup_cons] at nd
    by_cases hk : a = k
    · have e1 : (a == k) = true := beq_iff_eq.mpr hk
      simp [List.lookup, e1]
    · simp [List.lookup, beq_eq_false_iff_ne.mpr hk, ih nd.2]
  | swap x y l =>
    obtain ⟨k₁, b₁⟩ := x
    obtain ⟨k₂, b₂⟩ := y
    simp only [List.map_cons, List.nodup_cons, List.mem_cons] at nd
    have hne : k₂ ≠ k₁ := fun he => nd.1 (Or.inl he)
    by_cases h2 : a = k₂
    · have e1 : (a == k₂) = true := beq_iff_eq.mpr h2
      have e2 : (a == k₁) = false :=
        beq_eq_false_iff_ne.mpr (fun h => hne (h2.symm.trans h))
      simp [List.lookup, e1, e2]
    · by_cases h1 : a = k₁
      · have e1 : (a == k₁) = true := beq_iff_eq.mpr h1
        have e2 : (a == k₂) = false := beq_eq_false_iff_ne.mpr h2
        simp [List.lookup, e1, e2]
      · simp [List.lookup, beq_eq_false_iff_ne.mpr h1,
          beq_eq_false_iff_ne.mpr h2]
  | trans h₁ h₂ ih₁ ih₂ =>
    have nd₂ := (h₁.map Prod.fst).nodup nd
    rw [ih₁ nd, ih₂ nd₂]

/-- Helper: an index at or beyond the range bound has no entry in the
indexed completion list. -/
theorem lookup_range_map_ge {β : Type} (f : Nat → β) :
    ∀ n i : Nat, n ≤ i →
      List.lookup i ((List.range n).map fun j => (j, f j)) = none := by
  intro n
  induction n with
  | zero => intro i _; rfl
  | succ n ih =>
    intro i hi
    rw [List.range_succ, List.map_append, List.lookup_append]
    rw [ih i (by omega)]
    have hne : i ≠ n := by omega
    simp [List.lookup, beq_eq_false_iff_ne.mpr hne]

/-- Helper: an index below the range bound finds exactly its own entry in
the indexed completion list. -/
theorem lookup_range_map_lt {β : Type} (f : Nat → β) :
    ∀ n i : Nat, i < n →
      List.lookup i ((List.range n).map fun j => (j, f j)) = some (f i) := by
  intro n
  induction n with
  | zero => intro i hi; exact absurd hi (Nat.not_lt_zero i)
  | succ n ih =>
    intro i hi
    rw [List.range_succ, List.map_append, List.lookup_append]
    by_cases h : i < n
    · rw [ih i h]
      rfl
    · have hin : i = n := by omega
      subst hin
      rw [lookup_range_map_ge f i i (le_refl i)]
      simp [List.lookup, Option.or]

/-- Helper: the keys of the indexed completion list are distinct. -/
theorem nodup_keys_range_map {β : Type} (f : Nat → β) (n : Nat) :
    (((List.range n).map fun j => (j, f j)).map Prod.fst).Nodup := by
  have h : (((List.range n).map fun j => (j, f j)).map Prod.fst) =
      List.range n := by
    rw [List.map_map]
    simp [Function.comp_def]
  rw [h]
  exact List.nodup_range n

/-- C3: reassembling a batch from per-task completions delivered in any
order (any permutation of the indexed outcomes) yields a list of exactly
`paths.length` results, equal to the source's collection loop applied to
the outcomes in input order; the i-th element is task i's own result, with
an escaped exception converted to a `failed` result for that one document
while every other element is still produced. -/
theorem c3_batch_order_and_isolation (env : Env) (paths : List String)
    (outcome : Nat → BatchOutcome) (completions : List (Nat × BatchOutcome))
    (hperm : completions.Perm
      ((List.range paths.length).map fun i => (i, outcome i))) :
    (processBatchAssemble env paths completions).length = paths.length ∧
    processBatchAssemble env paths completions =
      processBatchCollect env paths ((List.range paths.length).map outcome) ∧
    (∀ i, i < paths.length →
      (processBatchAssemble env paths completions)[i]? =
        some (match outcome i with
          | Except.ok r => r
          | Except.error e => exceptionResult env (paths.getD i "") e)) ∧
    (∀ q e, (exceptionResult env q e).status = ProcessingStatus.failed) := by
  have ndI := nodup_keys_range_map outcome paths.length
  have ndC : (completions.map Prod.fst).Nodup :=
    ((hperm.map Prod.fst).symm).nodup ndI
  have hlk : ∀ a, List.lookup a completions =
      List.lookup a ((List.range paths.length).map fun i => (i, outcome i)) :=
    fun a => lookup_eq_of_perm hperm ndC a
  have helem : ∀ i, i < paths.length →
      (processBatchAssemble env paths completions)[i]? =
        some (match outcome i with
          | Except.ok r => r
          | Except.error e => exceptionResult env (paths.getD i "") e) := by
    intro i hi
    have hlook := hlk i
    rw [lookup_range_map_lt outcome paths.length i hi] at hlook
    simp only [processBatchAssemble, List.getElem?_map, List.getElem?_range hi]
    cases ho : outcome i with
    | ok r =>
      rw [ho] at hlook
      simp [hlook]
    | error e =>
      rw [ho] at hlook
      simp [hlook]
  refine ⟨?_, ?_, helem, fun q e => rfl⟩
  · simp [processBatchAssemble]
  · apply List.ext_getElem?
    intro i
    by_cases hi : i < paths.length
    · rw [helem i hi]
      have hp : paths[i]? = some (paths.getD i "") := by
        rw [List.getElem?_eq_getElem hi, List.getD_eq_getElem?_getD,
          List.getElem?_eq_getElem hi]
        rfl
      have ho : ((List.range paths.length).map outcome)[i]? =
          some (outcome i) := by
        rw [List.getElem?_map, List.getElem?_range hi]
        rfl
      have hz : (paths.zip ((List.range paths.length).map outcome))[i]? =
          some (paths.getD i "", outcome i) := by
        rw [List.getElem?_zip_eq_some]
        exact ⟨hp, ho⟩
      simp only [processBatchCollect, List.getElem?_map, hz, Option.map_some]
      cases outcome i <;> rfl
    · have h₁ : (processBatchAssemble env paths completions)[i]? = none := by
        apply List.getElem?_eq_none
        simp only [processBatchAssemble, List.length_map, List.length_range]
        omega
      have h₂ : (processBatchCollect env paths
          ((List.range paths.length).map outcome))[i]? = none := by
        apply List.getElem?_eq_none
        simp only [processBatchCollect, List.length_map, List.length_zip,
          List.length_range]
        omega
      rw [h₁, h₂]

/-- Witness for C3: a two-document batch whose completions arrive in
reverse order still produces input-ordered results, with the second
document's escaped exception isolated as its own `failed` entry. -/
theorem c3_batch_order_and_isolation_witness :
    (processBatchAssemble cEnv ["a.pdf", "b.pdf"]
        [(1, Except.error "boom"), (0, Except.ok cCachedResult)]).length = 2 ∧
    processBatchAssemble cEnv ["a.pdf", "b.pdf"]
        [(1, Except.error "boom"), (0, Except.ok cCachedResult)] =
      processBatchCollect cEnv ["a.pdf", "b.pdf"]
        [Except.ok cCachedResult, Except.error "boom"] := by
  have h := c3_batch_order_and_isolation cEnv ["a.pdf", "b.pdf"]
    (fun i => if i = 0 then Except.ok cCachedResult else Except.error "boom")
    [(1, Except.error "boom"), (0, Except.ok cCachedResult)]
    (by simp [List.range_succ]; exact List.Perm.swap _ _ _)
  refine ⟨h.1, ?_⟩
  have h2 := h.2.1
  simpa [List.range_succ] using h2

/-- Helper: no extraction pipelines are in flight at batch start. -/
theorem runningCount_semInit (cap n : Nat) :
    runningCount (semInit cap n).tasks = 0 := by
  simp only [semInit, runningCount]
  rw [List.countP_eq_zero]
  intro a ha
  rw [List.eq_of_mem_replicate ha]
  decide

/-- Helper: in every dispatcher state reachable from the initial one, the
in-flight pipelines and the free permits together account for exactly the
configured concurrency cap. -/
theorem sem_invariant (cap n : Nat) (s : SemState)
    (h : SemReachable (semInit cap n) s) :
    runningCount s.tasks + s.permits = cap := by
  induction h with
  | refl =>
    rw [runningCount_semInit]
    simp [semInit]
  | @step t t' hreach hstep ih =>
    cases hstep with
    | acquire i hi hp =>
      obtain ⟨hlt, hval⟩ := List.getElem?_eq_some.mp hi
      have hcount := List.countP_set (fun u => u == TaskPhase.running)
        t.tasks i TaskPhase.running hlt
      rw [hval] at hcount
      simp only [show (TaskPhase.waiting == TaskPhase.running) = false from rfl,
        show (TaskPhase.running == TaskPhase.running) = true from rfl,
        if_false, if_true, Bool.false_eq_true] at hcount
      simp only [runningCount] at *
      omega
    | release i hi =>
      obtain ⟨hlt, hval⟩ := List.getElem?_eq_some.mp hi
      have hcount := List.countP_set (fun u => u == TaskPhase.running)
        t.tasks i TaskPhase.finished hlt
      rw [hval] at hcount
      simp only [show (TaskPhase.running == TaskPhase.running) = true from rfl,
        show (TaskPhase.finished == TaskPhase.running) = false from rfl,
        if_false, if_true, Bool.false_eq_true] at hcount
      have hpos : 0 < List.countP (fun u => u == TaskPhase.running) t.tasks := by
        rw [List.countP_pos_iff]
        exact ⟨t.tasks[i], List.getElem_mem hlt, by rw [hval]; rfl⟩
      simp only [runningCount] at *
      omega

/-- C10: throughout any interleaving of the batch dispatcher started with
`maxConcurrent` permits, the number of extraction pipelines in flight
never exceeds `maxConcurrent`: a task enters its pipeline only through
semaphore acquisition, so the concurrency cap is enforced. -/
theorem c10_concurrency_bound (maxConcurrent numTasks : Nat) (s : SemState)
    (h : SemReachable (semInit maxConcurrent numTasks) s) :
    runningCount s.tasks ≤ maxConcurrent := by
  have hinv := sem_invariant maxConcurrent numTasks s h
  omega

/-- Witness for C10: the initial state of a batch of 5 documents under the
default cap of 3 is within the bound. -/
theorem c10_concurrency_bound_witness :
    runningCount (semInit 3 5).tasks ≤ 3 :=
  c10_concurrency_bound 3 5 (semInit 3 5) SemReachable.refl

end BrainsaitOcr
